import Mathlib

/-!
Verification development for the AutoWebsite-Monitor scan-and-score pipeline.

The TypeScript sources are shallowly embedded:
  * JavaScript strings are modelled as `List Char` (`JStr`),
  * absent values (`null` / `undefined`) as `Option`,
  * JavaScript numbers that the code keeps integral as `Int`,
  * the two asynchronous entry points (`scanWebsite`, `analyzeWithGemini`)
    as total functions over an explicit environment outcome
    (`FetchOutcome`, `RemoteOutcome`): resolving with a value is returning
    it, and the absence of any exceptional result type models the
    "always resolves, never rejects" contract.
-/

/-- JavaScript strings, modelled as lists of characters. -/
abbrev JStr := List Char

/-- Embed a Lean string literal as a `JStr`. -/
def jstr (s : String) : JStr := s.toList

/-- Case-sensitive prefix test, `a.startsWith(b)` in JavaScript
(`startsWithSeq pat text` is true when `pat` is a prefix of `text`). -/
def startsWithSeq : JStr → JStr → Bool
  | [], _ => true
  | _ :: _, [] => false
  | p :: ps, c :: cs => (c == p) && startsWithSeq ps cs

/-- Case-insensitive prefix test; the pattern is compared against the
lower-cased text (the patterns supplied in this file are lower case,
mirroring the `i` flag of the source's regular expressions). -/
def startsWithCI : JStr → JStr → Bool
  | [], _ => true
  | _ :: _, [] => false
  | p :: ps, c :: cs => (c.toLower == p) && startsWithCI ps cs

/-- Case-sensitive substring test, `text.includes(pat)` in JavaScript. -/
def containsSeq (pat : JStr) : JStr → Bool
  | [] => startsWithSeq pat []
  | c :: cs => startsWithSeq pat (c :: cs) || containsSeq pat cs

/-- Index of the leftmost case-insensitive occurrence of `pat`, scanning
positions left to right — the position at which a JavaScript regular
expression made of literal characters (with the `i` flag) matches. -/
def findCI (pat : JStr) : JStr → Option Nat
  | [] => if startsWithCI pat [] then some 0 else none
  | c :: cs =>
    if startsWithCI pat (c :: cs) then some 0
    else (findCI pat cs).map (· + 1)

/-- Does `pat` occur (case-insensitively) at position `i` of `text`? -/
def matchesAtCI (pat text : JStr) (i : Nat) : Bool :=
  startsWithCI pat (text.drop i)

/-- Specification-style form of leftmost matching: the first position
`i ≤ text.length` at which `pat` occurs case-insensitively. -/
def firstMatchCI (pat text : JStr) : Option Nat :=
  (List.range (text.length + 1)).find? (matchesAtCI pat text)

/-- Lower-case every character (used to state case-insensitivity). -/
def lowerStr (s : JStr) : JStr := s.map Char.toLower

/-- The WhiteSpace / LineTerminator characters removed by
`String.prototype.trim` (the ECMAScript set: tab, line feed, vertical
tab, form feed, carriage return, space, no-break space, the Unicode
space separators, the line/paragraph separators, and the byte order
mark). -/
def isJsSpace (c : Char) : Bool :=
  c == ' ' || c == '\t' || c == '\n' || c == '\r' ||
  c == '\x0b' || c == '\x0c' || c == '\u00A0' || c == '\u1680' ||
  (0x2000 ≤ c.toNat && c.toNat ≤ 0x200A) ||
  c == '\u2028' || c == '\u2029' || c == '\u202F' || c == '\u205F' ||
  c == '\u3000' || c == '\uFEFF'

/-- `s.trim()`: drop the whitespace at both ends. -/
def jsTrim (s : JStr) : JStr :=
  ((s.dropWhile isJsSpace).reverse.dropWhile isJsSpace).reverse

/-- URL normalisation, from `scanWebsite` (webScanner source, step 1):
trim, then prepend `https://` unless the string already starts with
`http://` or `https://` case-insensitively (`/^https?:\/\//i`). -/
def normalizeUrl (rawUrl : JStr) : JStr :=
  let url := jsTrim rawUrl
  if startsWithCI (jstr "http://") url || startsWithCI (jstr "https://") url
  then url
  else jstr "https://" ++ url

/-- `ScanMetrics` from types.ts: result of the probe + extractor stage.
`null` fields become `none`; the optional `fetchError` field is `none`
when omitted. -/
structure ScanMetrics where
  url : JStr
  statusCode : Option Int
  responseTimeMs : Option Int
  headers : List (JStr × JStr)
  htmlSnippet : Option JStr
  fetchError : Option JStr
deriving DecidableEq

/-- Leftmost match of `/<head>([\s\S]*?)<\/head>/i` on `text`, returned as
(start index, length of the whole match).  The regex engine tries start
positions left to right; at a start it must read the literal `<head>`,
then the lazy `[\s\S]*?` grows minimally until the literal `</head>`
matches.  Since `[\s\S]` accepts every character, this is: the first
case-insensitive occurrence of `<head>`, closed at the first
case-insensitive occurrence of `</head>` after it (if an earlier start has
no closing tag after it, no later start has one either, so searching from
the first `<head>` is exact). -/
def matchHead (text : JStr) : Option (Nat × Nat) :=
  match findCI (jstr "<head>") text with
  | none => none
  | some p =>
    match findCI (jstr "</head>") (text.drop (p + 6)) with
    | none => none
    | some q => some (p, 6 + q + 7)

/-- Leftmost match of `/<body[^>]*>([\s\S]*?)<\/body>/i` on `text`,
returned as (start index, length) of capture group 1 (the inner content).
By the same leftmost-match reasoning as `matchHead`: first
case-insensitive occurrence of `<body`; the greedy `[^>]*` followed by `>`
ends the opening tag at the first `>` from there; the lazy group runs to
the first case-insensitive `</body>` after the opening tag. -/
def matchBodyInner (text : JStr) : Option (Nat × Nat) :=
  match findCI (jstr "<body") text with
  | none => none
  | some p =>
    match (text.drop (p + 5)).findIdx? (fun c => c == '>') with
    | none => none
    | some g =>
      let innerStart := p + 5 + g + 1
      match findCI (jstr "</body>") (text.drop innerStart) with
      | none => none
      | some q => some (innerStart, q)

/-- Feature extraction from `scanWebsite` (webScanner source): the
`headMatch[0]` block, plus the first 1500 characters of `bodyMatch[1]`,
falling back to the first 2000 characters of the raw body when the
accumulated snippet is still empty. -/
def extractSnippet (text : JStr) : JStr :=
  let headPart : JStr :=
    match matchHead text with
    | some (p, len) => (text.drop p).take len
    | none => []
  let bodyPart : JStr :=
    match matchBodyInner text with
    | some (s, len) => ((text.drop s).take len).take 1500
    | none => []
  let snippet := headPart ++ bodyPart
  if snippet.isEmpty then text.take 2000 else snippet

/-- Environment outcome of the single `fetch` attempt inside
`scanWebsite`: either the response resolves (status, rounded elapsed
milliseconds, the header pairs exposed to the page, and the body text), or
an error is thrown, classified by whether its `name` is `AbortError`
(the 4000 ms deadline fired) and carrying its optional `message`. -/
inductive FetchOutcome where
  | success (status : Int) (elapsedMs : Int)
      (headers : List (JStr × JStr)) (body : JStr)
  | failure (isAbort : Bool) (message : Option JStr)
deriving DecidableEq

/-- `error.message || 'Network/CORS Error'`: the message when it is a
non-empty string, the default otherwise (absent or empty are falsy). -/
def describeError (message : Option JStr) : JStr :=
  match message with
  | some s => if s.isEmpty then jstr "Network/CORS Error" else s
  | none => jstr "Network/CORS Error"

/-- `scanWebsite` (the probe, webScanner source), with the network
environment's behaviour passed in as a `FetchOutcome`.  Totality of this
function is the "always resolves, never rejects" contract: both the try
branch and the catch branch return a `ScanMetrics`. -/
def scanWebsite (rawUrl : JStr) (outcome : FetchOutcome) : ScanMetrics :=
  let url := normalizeUrl rawUrl
  match outcome with
  | .success status elapsedMs hdrs body =>
    { url := url
      statusCode := some status
      responseTimeMs := some elapsedMs
      headers := hdrs
      htmlSnippet := some (extractSnippet body)
      fetchError := none }
  | .failure isAbort message =>
    { url := url
      statusCode := none
      responseTimeMs := none
      headers := []
      htmlSnippet := none
      fetchError := some (if isAbort then jstr "Connection Timeout"
                          else describeError message) }

/-- A `{summary, details}` narrative record from `AIAnalysis` (types.ts). -/
structure SummaryDetails where
  summary : JStr
  details : List JStr
deriving DecidableEq

/-- The enumerated privacy level from `AIAnalysis` (types.ts). -/
inductive PrivacyLevel where
  | lowConcern
  | needsAttention
  | highConcern
deriving DecidableEq

/-- The privacy record of `AIAnalysis`: summary/details plus the level. -/
structure PrivacyReport where
  summary : JStr
  details : List JStr
  level : PrivacyLevel
deriving DecidableEq

/-- `AIAnalysis` from types.ts.  `jsErrors` is nullable there, hence the
`Option`. -/
structure AIAnalysis where
  healthScore : Int
  seo : SummaryDetails
  accessibility : SummaryDetails
  privacy : PrivacyReport
  jsErrors : Option SummaryDetails
  recommendations : List JStr
deriving DecidableEq

/-- JavaScript falsiness of a nullable number: `!x` is true for `null`
and for `0`. -/
def numFalsy : Option Int → Bool
  | none => true
  | some n => n == 0

/-- `metrics.statusCode >= 400` under the short-circuit in
`simulateAnalysis` (only ever evaluated on non-null values; on `none` the
comparison is not reached, so the value here is irrelevant — `false`
matches `null >= 400`). -/
def statusGe400 : Option Int → Bool
  | none => false
  | some n => decide (400 ≤ n)

/-- JavaScript falsiness of the nullable snippet: `!s` is true for `null`
and for the empty string. -/
def snippetFalsy : Option JStr → Bool
  | none => true
  | some s => s.isEmpty

/-- `metrics.htmlSnippet?.includes(pat)` used as a condition: optional
chaining yields `undefined` (falsy) when the snippet is `null`. -/
def snippetIncludes (snippet : Option JStr) (pat : JStr) : Bool :=
  match snippet with
  | none => false
  | some s => containsSeq pat s

/-- Truthiness of the optional `fetchError` string (absent and empty are
falsy). -/
def fetchErrorTruthy : Option JStr → Bool
  | none => false
  | some s => !s.isEmpty

/-- The score computation of `simulateAnalysis` (geminiService source,
the STRICT SCORING MATH block), verbatim: start at 100; −20 when the URL
does not start with `https`; when `!statusCode || statusCode >= 400`,
either −40 (`statusCode !== null`) or −15 (null); −15 when the console
logs are non-empty; −10 when the snippet is falsy; floor at 0. -/
def simulateScore (metrics : ScanMetrics) (consoleLogs : JStr) : Int :=
  let isError := numFalsy metrics.statusCode || statusGe400 metrics.statusCode
  let hasLogs := decide (0 < consoleLogs.length)
  let isHttps := startsWithSeq (jstr "https") metrics.url
  let s0 : Int := 100
  let s1 := if !isHttps then s0 - 20 else s0
  let s2 := if isError then
      (if metrics.statusCode.isSome then s1 - 40 else s1 - 15)
    else s1
  let s3 := if hasLogs then s2 - 15 else s2
  let s4 := if snippetFalsy metrics.htmlSnippet then s3 - 10 else s3
  max 0 s4

/-- The `jsErrors` record produced when console logs are present. -/
def failingScriptsRecord : SummaryDetails :=
  { summary := jstr "Some background scripts are failing."
    details := [jstr "A feature might be broken", jstr "A file failed to load"] }

/-- The `jsErrors` record produced when console logs are absent. -/
def noErrorsRecord : SummaryDetails :=
  { summary := jstr "No background errors detected."
    details := [jstr "Website code is running smoothly"] }

/-- `simulateAnalysis` (geminiService source): the deterministic scoring
engine.  The 400 ms UX delay has no observable effect on the resolved
value and is dropped; everything else is transcribed field by field. -/
def simulateAnalysis (metrics : ScanMetrics) (consoleLogs : JStr) : AIAnalysis :=
  let hasLogs := decide (0 < consoleLogs.length)
  let isHttps := startsWithSeq (jstr "https") metrics.url
  let score := simulateScore metrics consoleLogs
  { healthScore := score
    seo :=
      { summary :=
          if snippetFalsy metrics.htmlSnippet then
            jstr "We couldn\x27t read the page details because the site is blocking automated scans. This usually means security is active."
          else
            jstr "The basic setup for Google Search looks correct."
        details :=
          [ if snippetIncludes metrics.htmlSnippet (jstr "<title>") then
              jstr "Page title is visible to search engines"
            else jstr "Page title check skipped"
          , if snippetIncludes metrics.htmlSnippet (jstr "description") then
              jstr "Summary description found for search results"
            else jstr "Search summary check skipped"
          , if isHttps then jstr "Connection is secure (HTTPS)"
            else jstr "Connection is insecure (HTTP)"
          , jstr "Search engines understand this is the main page" ] }
    accessibility :=
      { summary :=
          if snippetFalsy metrics.htmlSnippet then
            jstr "Visual accessibility check skipped due to security blocks."
          else
            jstr "The code allows screen readers to read the page."
        details :=
          [ jstr "Browser knows which language to display"
          , jstr "Page structure is readable by machines"
          , jstr "Images have descriptions for the blind" ] }
    privacy :=
      { summary := jstr "Privacy basics appear to be in place."
        details :=
          [ jstr "Privacy policy is mentioned on the page"
          , jstr "No invasive tracking codes found"
          , jstr "Cookie popup not immediately visible" ]
        level := if 80 < score then .lowConcern else .needsAttention }
    jsErrors := some (if hasLogs then failingScriptsRecord else noErrorsRecord)
    recommendations :=
      [ if !isHttps then
          jstr "Switch to HTTPS to protect user passwords and improve Google ranking."
        else
          jstr "Double-check that your SSL security certificate renews automatically."
      , if fetchErrorTruthy metrics.fetchError then
          jstr "Your site is secure against bots, which is good! Use a server-tool for deeper analysis."
        else
          jstr "Add \x27Schema\x27 info so Google can show stars or prices in search results."
      , jstr "Ensure your cookie banner is easy to read on mobile phones." ] }

/-- JSON values, the possible results of `JSON.parse` — at run time the
orchestrator's `as AIAnalysis` cast erases to nothing, so the value it
returns is an arbitrary JSON value. -/
inductive Json where
  | null : Json
  | bool : Bool → Json
  | num : Int → Json
  | str : JStr → Json
  | arr : List Json → Json
  | obj : List (JStr × Json) → Json

/-- Field lookup on a JSON object (first binding wins). -/
def lookupField : List (JStr × Json) → JStr → Option Json
  | [], _ => none
  | (k, v) :: rest, key => if k = key then some v else lookupField rest key

/-- Field access on a JSON value. -/
def Json.getField : Json → JStr → Option Json
  | .obj fields, key => lookupField fields key
  | _, _ => none

/-- Read a JSON string. -/
def Json.asStr : Json → Option JStr
  | .str s => some s
  | _ => none

/-- Read a JSON integer. -/
def Json.asInt : Json → Option Int
  | .num n => some n
  | _ => none

/-- Read a JSON array of strings. -/
def Json.asStrList : Json → Option (List JStr)
  | .arr xs => xs.mapM Json.asStr
  | _ => none

/-- Serialise a narrative record to JSON. -/
def encodeSummaryDetails (r : SummaryDetails) : Json :=
  .obj [ (jstr "summary", .str r.summary)
       , (jstr "details", .arr (r.details.map Json.str)) ]

/-- The enumerated privacy strings of types.ts. -/
def encodePrivacyLevel : PrivacyLevel → JStr
  | .lowConcern => jstr "Low concern"
  | .needsAttention => jstr "Needs attention"
  | .highConcern => jstr "High concern"

/-- Serialise an `AIAnalysis` to the JSON value the caller observes (a
null `jsErrors` serialises to JSON null). -/
def encodeAIAnalysis (a : AIAnalysis) : Json :=
  .obj [ (jstr "healthScore", .num a.healthScore)
       , (jstr "seo", encodeSummaryDetails a.seo)
       , (jstr "accessibility", encodeSummaryDetails a.accessibility)
       , (jstr "privacy", .obj
            [ (jstr "summary", .str a.privacy.summary)
            , (jstr "details", .arr (a.privacy.details.map Json.str))
            , (jstr "level", .str (encodePrivacyLevel a.privacy.level)) ])
       , (jstr "jsErrors", match a.jsErrors with
            | some r => encodeSummaryDetails r
            | none => .null)
       , (jstr "recommendations", .arr (a.recommendations.map Json.str)) ]

/-- Modelled from the spec: decode a privacy level string (the enum of
types.ts / the response schema). -/
def decodePrivacyLevel (s : JStr) : Option PrivacyLevel :=
  if s = jstr "Low concern" then some .lowConcern
  else if s = jstr "Needs attention" then some .needsAttention
  else if s = jstr "High concern" then some .highConcern
  else none

/-- Modelled from the spec: decode a `{summary, details}` record. -/
def decodeSummaryDetails (j : Json) : Option SummaryDetails := do
  let summary ← (← j.getField (jstr "summary")).asStr
  let details ← (← j.getField (jstr "details")).asStrList
  pure { summary := summary, details := details }

/-- Modelled from the spec: decode the privacy record (summary, details,
enumerated level). -/
def decodePrivacyReport (j : Json) : Option PrivacyReport :=
  (j.getField (jstr "summary")).bind fun sj =>
  sj.asStr.bind fun summary =>
  (j.getField (jstr "details")).bind fun dj =>
  dj.asStrList.bind fun details =>
  (j.getField (jstr "level")).bind fun lj =>
  lj.asStr.bind fun ls =>
  (decodePrivacyLevel ls).map fun level =>
  { summary := summary, details := details, level := level }

/-- Modelled from the spec: the nullable `jsErrors` field (JSON null or a
summary/details record). -/
def decodeJsErrors (j : Json) : Option (Option SummaryDetails) :=
  match j with
  | .null => some none
  | r => (decodeSummaryDetails r).map some

/-- Modelled from the spec: the "expected `AIAnalysis` shape" of §4.5/§6
(integer score, nested summary/details records, enumerated privacy level,
string-array recommendations; `jsErrors` may be JSON null).  The
orchestrator's source performs NO such check — this definition exists to
state what the spec claims it checks. -/
def decodeAIAnalysis (j : Json) : Option AIAnalysis :=
  (j.getField (jstr "healthScore")).bind fun hj =>
  hj.asInt.bind fun healthScore =>
  (j.getField (jstr "seo")).bind fun sj =>
  (decodeSummaryDetails sj).bind fun seo =>
  (j.getField (jstr "accessibility")).bind fun aj =>
  (decodeSummaryDetails aj).bind fun accessibility =>
  (j.getField (jstr "privacy")).bind fun pj =>
  (decodePrivacyReport pj).bind fun privacy =>
  (j.getField (jstr "jsErrors")).bind fun ej =>
  (decodeJsErrors ej).bind fun jsErrors =>
  (j.getField (jstr "recommendations")).bind fun rj =>
  rj.asStrList.map fun recommendations =>
  { healthScore := healthScore, seo := seo, accessibility := accessibility
    privacy := privacy, jsErrors := jsErrors
    recommendations := recommendations }

/-- Environment outcome of the orchestrator's remote path: either no API
key was configured, or the 15000 ms timeout rejection won the race, or
the API call itself rejected, or a response arrived — carrying
`response.text` (`none` models an undefined `text`) and, when the code
goes on to call `JSON.parse` on it, that call's result (`none` models a
parse exception). -/
inductive RemoteOutcome where
  | noKey
  | timeoutFirst
  | callRejected
  | responded (text : Option JStr) (parsed : Option Json)

/-- `analyzeWithGemini` (geminiService source), with the environment
passed in as a `RemoteOutcome`.  Totality is the "always resolves"
contract: every `catch`-reachable state returns the simulation, and a
parsed payload is returned as-is — the `as AIAnalysis` cast does not
validate, so the function's run-time result type is a JSON value. -/
def analyzeWithGemini (outcome : RemoteOutcome) (metrics : ScanMetrics)
    (consoleLogs : JStr) : Json :=
  match outcome with
  | .noKey => encodeAIAnalysis (simulateAnalysis metrics consoleLogs)
  | .timeoutFirst => encodeAIAnalysis (simulateAnalysis metrics consoleLogs)
  | .callRejected => encodeAIAnalysis (simulateAnalysis metrics consoleLogs)
  | .responded text parsed =>
    match text with
    | some t =>
      if t.isEmpty then encodeAIAnalysis (simulateAnalysis metrics consoleLogs)
      else
        match parsed with
        | some j => j
        | none => encodeAIAnalysis (simulateAnalysis metrics consoleLogs)
    | none => encodeAIAnalysis (simulateAnalysis metrics consoleLogs)

/-- The deduction table exactly as claimed (spec §4.4): 20 when the URL
does not start with `https`; 40 when the status code is present and
≥ 400; 15 when it is absent; 15 when the logs are non-empty; 10 when the
snippet is absent; floored at 0. -/
def claimHealthScore (m : ScanMetrics) (logs : JStr) : Int :=
  max 0 (100
    - (if startsWithSeq (jstr "https") m.url then 0 else 20)
    - (match m.statusCode with
       | some n => if 400 ≤ n then 40 else 0
       | none => 15)
    - (if logs = [] then 0 else 15)
    - (match m.htmlSnippet with
       | some _ => 0
       | none => 10))

/-- The deduction table as the code actually computes it: a present
status code of 0 is falsy in JavaScript and draws the 40-point deduction,
and a present-but-empty snippet is falsy and draws the 10-point
deduction. -/
def amendedHealthScore (m : ScanMetrics) (logs : JStr) : Int :=
  max 0 (100
    - (if startsWithSeq (jstr "https") m.url then 0 else 20)
    - (match m.statusCode with
       | some n => if 400 ≤ n ∨ n = 0 then 40 else 0
       | none => 15)
    - (if logs = [] then 0 else 15)
    - (match m.htmlSnippet with
       | some s => if s = [] then 10 else 0
       | none => 10))

/-- The head block of the claimed extraction (spec §4.3, step 1), stated
through `firstMatchCI`: the leftmost case-insensitive `<head>`, closed at
the first case-insensitive `</head>` after it, tags included. -/
def specHeadBlock (text : JStr) : Option JStr :=
  match firstMatchCI (jstr "<head>") text with
  | none => none
  | some p =>
    match firstMatchCI (jstr "</head>") (text.drop (p + 6)) with
    | none => none
    | some q => some ((text.drop p).take (6 + q + 7))

/-- The body inner content of the claimed extraction (spec §4.3, step 2),
stated through `firstMatchCI`: the leftmost case-insensitive `<body`,
its opening tag closed at the first `>`, the inner content running to the
first case-insensitive `</body>` after it. -/
def specBodyInner (text : JStr) : Option JStr :=
  match firstMatchCI (jstr "<body") text with
  | none => none
  | some p =>
    match (text.drop (p + 5)).findIdx? (fun c => c == '>') with
    | none => none
    | some g =>
      let innerStart := p + 5 + g + 1
      match firstMatchCI (jstr "</body>") (text.drop innerStart) with
      | none => none
      | some q => some ((text.drop innerStart).take q)

/-- The snippet exactly as claimed (spec §4.3 / §8): head block if found,
then up to 1500 characters of body inner content if found; the first 2000
raw characters only when NEITHER region is found; absent for an empty
body. -/
def claimSnippetOpt (text : JStr) : Option JStr :=
  if text = [] then none
  else
    match specHeadBlock text, specBodyInner text with
    | none, none => some (text.take 2000)
    | h, b => some (h.getD [] ++ (b.getD []).take 1500)

/-- The snippet as the code actually extracts it: head block plus up to
1500 characters of body inner content; whenever that concatenation is
empty (neither region found, or only an empty body inner content), the
first 2000 raw characters instead; an empty body yields the present empty
string. -/
def amendedSnippetSpec (text : JStr) : JStr :=
  let s := (specHeadBlock text).getD [] ++ ((specBodyInner text).getD []).take 1500
  if s = [] then text.take 2000 else s

/-- The health score of the engine output is the score computation. -/
theorem healthScore_simulate (m : ScanMetrics) (L : JStr) :
    (simulateAnalysis m L).healthScore = simulateScore m L := rfl

/-- The score computation agrees with the amended deduction table. -/
theorem simulateScore_eq_amended (m : ScanMetrics) (L : JStr) :
    simulateScore m L = amendedHealthScore m L := by
  rcases m with ⟨url, status, rt, hdrs, snip, ferr⟩
  rcases hH : startsWithSeq (jstr "https") url <;>
  rcases L with _ | ⟨c, cs⟩ <;>
  rcases snip with _ | ⟨c2, s2⟩ <;>
  rcases status with _ | n
  all_goals try by_cases h0 : n = (0 : Int)
  all_goals try by_cases h4 : (400 : Int) ≤ n
  all_goals simp_all [simulateScore, amendedHealthScore, numFalsy, statusGe400,
    snippetFalsy]
  all_goals omega

/-- The cumulative deduction never exceeds 85, so the score is at least 15. -/
theorem simulateScore_ge_15 (m : ScanMetrics) (L : JStr) :
    15 ≤ simulateScore m L := by
  rcases m with ⟨url, status, rt, hdrs, snip, ferr⟩
  rcases status with _ | n <;> rcases snip with _ | s <;>
    simp only [simulateScore] <;> split_ifs <;> decide

/-- Deductions only subtract, so the score is at most 100. -/
theorem simulateScore_le_100 (m : ScanMetrics) (L : JStr) :
    simulateScore m L ≤ 100 := by
  rcases m with ⟨url, status, rt, hdrs, snip, ferr⟩
  rcases status with _ | n <;> rcases snip with _ | s <;>
    simp only [simulateScore] <;> split_ifs <;> decide

/-- Reading back a list of serialised strings yields the list. -/
theorem mapM_asStr_map_str (xs : List JStr) :
    (xs.map Json.str).mapM Json.asStr = some xs := by
  induction xs with
  | nil => rfl
  | cons x rest ih => rw [List.map_cons, List.mapM_cons, ih]; rfl

/-- Reading back a serialised string array yields the original list. -/
theorem asStrList_arr_map (xs : List JStr) :
    Json.asStrList (.arr (xs.map .str)) = some xs :=
  mapM_asStr_map_str xs

/-- A serialised narrative record decodes to itself. -/
theorem decodeSummaryDetails_encode (r : SummaryDetails) :
    decodeSummaryDetails (encodeSummaryDetails r) = some r := by
  rcases r with ⟨sum, det⟩
  have h1 : (encodeSummaryDetails ⟨sum, det⟩).getField (jstr "summary")
      = some (.str sum) := rfl
  have h2 : (encodeSummaryDetails ⟨sum, det⟩).getField (jstr "details")
      = some (.arr (det.map .str)) := rfl
  simp [decodeSummaryDetails, h1, h2, Json.asStr, asStrList_arr_map]

/-- A serialised privacy level decodes to itself. -/
theorem decodePrivacyLevel_encode (l : PrivacyLevel) :
    decodePrivacyLevel (encodePrivacyLevel l) = some l := by
  rcases l <;> rfl

/-- A serialised privacy record decodes to itself. -/
theorem decodePrivacyReport_encode (psum : JStr) (pdet : List JStr)
    (plevel : PrivacyLevel) :
    decodePrivacyReport (.obj
        [ (jstr "summary", .str psum)
        , (jstr "details", .arr (pdet.map Json.str))
        , (jstr "level", .str (encodePrivacyLevel plevel)) ])
      = some ⟨psum, pdet, plevel⟩ := by
  have g1 : (Json.obj
      [ (jstr "summary", Json.str psum)
      , (jstr "details", Json.arr (pdet.map Json.str))
      , (jstr "level", Json.str (encodePrivacyLevel plevel)) ]).getField
      (jstr "summary") = some (.str psum) := rfl
  have g2 : (Json.obj
      [ (jstr "summary", Json.str psum)
      , (jstr "details", Json.arr (pdet.map Json.str))
      , (jstr "level", Json.str (encodePrivacyLevel plevel)) ]).getField
      (jstr "details") = some (.arr (pdet.map Json.str)) := rfl
  have g3 : (Json.obj
      [ (jstr "summary", Json.str psum)
      , (jstr "details", Json.arr (pdet.map Json.str))
      , (jstr "level", Json.str (encodePrivacyLevel plevel)) ]).getField
      (jstr "level") = some (.str (encodePrivacyLevel plevel)) := rfl
  simp [decodePrivacyReport, g1, g2, g3, Json.asStr, asStrList_arr_map,
    decodePrivacyLevel_encode]

/-- A serialised `AIAnalysis` decodes to itself: the engine output put
on the wire is well-shaped. -/
theorem decode_encode (a : AIAnalysis) :
    decodeAIAnalysis (encodeAIAnalysis a) = some a := by
  rcases a with ⟨hs, seo, acc, ⟨psum, pdet, plevel⟩, jsE, rec⟩
  rcases jsE with _ | jsrec
  · have h5 : (encodeAIAnalysis ⟨hs, seo, acc, ⟨psum, pdet, plevel⟩, none, rec⟩).getField
        (jstr "jsErrors") = some .null := rfl
    have hj : decodeJsErrors Json.null = some none := rfl
    have h1 : (encodeAIAnalysis ⟨hs, seo, acc, ⟨psum, pdet, plevel⟩, none, rec⟩).getField
        (jstr "healthScore") = some (.num hs) := rfl
    have h2 : (encodeAIAnalysis ⟨hs, seo, acc, ⟨psum, pdet, plevel⟩, none, rec⟩).getField
        (jstr "seo") = some (encodeSummaryDetails seo) := rfl
    have h3 : (encodeAIAnalysis ⟨hs, seo, acc, ⟨psum, pdet, plevel⟩, none, rec⟩).getField
        (jstr "accessibility") = some (encodeSummaryDetails acc) := rfl
    have h4 : (encodeAIAnalysis ⟨hs, seo, acc, ⟨psum, pdet, plevel⟩, none, rec⟩).getField
        (jstr "privacy") = some (.obj
          [ (jstr "summary", .str psum)
          , (jstr "details", .arr (pdet.map Json.str))
          , (jstr "level", .str (encodePrivacyLevel plevel)) ]) := rfl
    have h6 : (encodeAIAnalysis ⟨hs, seo, acc, ⟨psum, pdet, plevel⟩, none, rec⟩).getField
        (jstr "recommendations") = some (.arr (rec.map Json.str)) := rfl
    simp [decodeAIAnalysis, h1, h2, h3, h4, h5, h6, Json.asInt, asStrList_arr_map,
      decodeSummaryDetails_encode, decodePrivacyReport_encode, hj]
  · have h5 : (encodeAIAnalysis
          ⟨hs, seo, acc, ⟨psum, pdet, plevel⟩, some jsrec, rec⟩).getField
        (jstr "jsErrors") = some (encodeSummaryDetails jsrec) := rfl
    have hj : decodeJsErrors (encodeSummaryDetails jsrec) = some (some jsrec) := by
      have hstep : decodeJsErrors (encodeSummaryDetails jsrec)
          = (decodeSummaryDetails (encodeSummaryDetails jsrec)).map some := rfl
      rw [hstep, decodeSummaryDetails_encode]
      rfl
    have h1 : (encodeAIAnalysis
          ⟨hs, seo, acc, ⟨psum, pdet, plevel⟩, some jsrec, rec⟩).getField
        (jstr "healthScore") = some (.num hs) := rfl
    have h2 : (encodeAIAnalysis
          ⟨hs, seo, acc, ⟨psum, pdet, plevel⟩, some jsrec, rec⟩).getField
        (jstr "seo") = some (encodeSummaryDetails seo) := rfl
    have h3 : (encodeAIAnalysis
          ⟨hs, seo, acc, ⟨psum, pdet, plevel⟩, some jsrec, rec⟩).getField
        (jstr "accessibility") = some (encodeSummaryDetails acc) := rfl
    have h4 : (encodeAIAnalysis
          ⟨hs, seo, acc, ⟨psum, pdet, plevel⟩, some jsrec, rec⟩).getField
        (jstr "privacy") = some (.obj
          [ (jstr "summary", .str psum)
          , (jstr "details", .arr (pdet.map Json.str))
          , (jstr "level", .str (encodePrivacyLevel plevel)) ]) := rfl
    have h6 : (encodeAIAnalysis
          ⟨hs, seo, acc, ⟨psum, pdet, plevel⟩, some jsrec, rec⟩).getField
        (jstr "recommendations") = some (.arr (rec.map Json.str)) := rfl
    simp [decodeAIAnalysis, h1, h2, h3, h4, h5, h6, Json.asInt, asStrList_arr_map,
      decodeSummaryDetails_encode, decodePrivacyReport_encode, hj]

/-- Claim C1, counterexample.  The claimed deduction table is violated at
the `ScanMetrics` value with `url = "https://ok.example"`,
`statusCode = 0` and `htmlSnippet = ""` (and empty logs): the table
predicts 100 (status present and < 400, snippet present), but the engine
scores 50, because a present status code of 0 is falsy in JavaScript
(drawing the 40-point present-status deduction) and a present-but-empty
snippet is falsy (drawing the 10-point deduction). -/
theorem c1_scoring_counterexample :
    (simulateAnalysis ⟨jstr "https://ok.example", some 0, some 10, [], some [], none⟩
        []).healthScore
      ≠ claimHealthScore ⟨jstr "https://ok.example", some 0, some 10, [], some [], none⟩ []
    ∧ (simulateAnalysis ⟨jstr "https://ok.example", some 0, some 10, [], some [], none⟩
        []).healthScore = 50
    ∧ claimHealthScore ⟨jstr "https://ok.example", some 0, some 10, [], some [], none⟩ []
        = 100 := by
  refine ⟨?_, by decide, by decide⟩
  decide

/-- Claim C1 (amended).  For every `ScanMetrics` and log string the
engine's `healthScore` is 100 minus independent deductions, floored at 0:
20 when the URL does not start with `https`; 40 when `statusCode` is
present and (≥ 400 or = 0); 15 when `statusCode` is absent; 15 when the
logs are non-empty; 10 when `htmlSnippet` is absent or empty.  The four
particular examples of the claim all hold. -/
theorem c1_scoring_deduction_table :
    (∀ (m : ScanMetrics) (L : JStr),
        (simulateAnalysis m L).healthScore = amendedHealthScore m L)
    ∧ (simulateAnalysis ⟨jstr "https://ok.example", some 200, some 50, [],
        some (jstr "<title>ok</title>"), none⟩ []).healthScore = 100
    ∧ (simulateAnalysis ⟨jstr "https://ok.example", some 404, some 50, [],
        some (jstr "<title>ok</title>"), none⟩ []).healthScore = 60
    ∧ (simulateAnalysis ⟨jstr "http://ok.example", some 500, some 50, [],
        none, none⟩ (jstr "err")).healthScore = 15
    ∧ (simulateAnalysis ⟨jstr "https://ok.example", none, none, [],
        some (jstr "<title>"), some (jstr "Network/CORS Error")⟩ []).healthScore = 85 := by
  refine ⟨fun m L => (healthScore_simulate m L).trans (simulateScore_eq_amended m L),
    by decide, by decide, by decide, by decide⟩

/-- Claim C7, counterexample (negation of the claim).  No input at all
gives the engine a score of 0: the 40-point and 15-point status
deductions are mutually exclusive (an if/else on `statusCode !== null`),
so the cumulative deduction never exceeds 20 + 40 + 15 + 10 = 85 and the
claimed total of 100 is unattainable. -/
theorem c7_zero_score_unattainable :
    ¬ ∃ (m : ScanMetrics) (L : JStr), (simulateAnalysis m L).healthScore = 0 := by
  rintro ⟨m, L, h⟩
  rw [healthScore_simulate] at h
  have := simulateScore_ge_15 m L
  omega

/-- Claim C7 (amended).  The maximum cumulative deduction is 85 (the two
status-code deductions are mutually exclusive), so the minimum attainable
score is 15 — attained at an `http` URL with status 500, non-empty logs
and a missing snippet — and the clamp at 0 is never active; the score
always lies in [15, 100]. -/
theorem c7_score_range :
    (∀ (m : ScanMetrics) (L : JStr),
        15 ≤ (simulateAnalysis m L).healthScore
        ∧ (simulateAnalysis m L).healthScore ≤ 100)
    ∧ (simulateAnalysis ⟨jstr "http://ok.example", some 500, some 50, [],
        none, none⟩ (jstr "err")).healthScore = 15 := by
  refine ⟨fun m L => ?_, by decide⟩
  rw [healthScore_simulate]
  exact ⟨simulateScore_ge_15 m L, simulateScore_le_100 m L⟩

/-- Claim C9.  On every successful probe the snippet is a present string
(never `none`): an empty response body yields the present empty string,
and the scoring engine treats a present empty snippet exactly like an
absent one (whole-output equality), applying the 10-point missing-HTML
deduction (concretely: an otherwise perfect metrics record with an empty
snippet scores 90). -/
theorem c9_empty_snippet_is_string :
    (∀ (raw : JStr) (st ms : Int) (hdrs : List (JStr × JStr)) (body : JStr),
        (scanWebsite raw (.success st ms hdrs body)).htmlSnippet
          = some (extractSnippet body))
    ∧ (∀ (raw : JStr) (st ms : Int) (hdrs : List (JStr × JStr)),
        (scanWebsite raw (.success st ms hdrs [])).htmlSnippet = some [])
    ∧ (∀ (m : ScanMetrics) (L : JStr),
        simulateAnalysis { m with htmlSnippet := some [] } L
          = simulateAnalysis { m with htmlSnippet := none } L)
    ∧ (simulateAnalysis ⟨jstr "https://ok.example", some 200, some 10, [],
        some [], none⟩ []).healthScore = 90 := by
  refine ⟨fun raw st ms hdrs body => rfl, fun raw st ms hdrs => rfl,
    fun m L => rfl, by decide⟩

/-- Claim C10.  The `jsErrors` field of the engine output is never null: it is always
exactly one of two fixed records, the failing-scripts record when the
logs are non-empty and the no-errors record when they are empty, even
though the `AIAnalysis` type permits null. -/
theorem c10_jserrors_total :
    ∀ (m : ScanMetrics) (L : JStr),
      (simulateAnalysis m L).jsErrors
        = some (if L = [] then noErrorsRecord else failingScriptsRecord) := by
  intro m L
  rcases L with _ | ⟨c, cs⟩ <;> simp [simulateAnalysis]

/-- Claim C3.  On any failure the probe resolves (the model is a total
function) with `statusCode`, `responseTimeMs` and `htmlSnippet` absent
and `headers` empty; `fetchError` is exactly `"Connection Timeout"` when
the 4000 ms deadline aborted the fetch, and otherwise the (non-empty) description carried
by the underlying error. -/
theorem c3_probe_failure_shape :
    (∀ (raw : JStr) (isAbort : Bool) (msg : Option JStr),
        (scanWebsite raw (.failure isAbort msg)).statusCode = none
        ∧ (scanWebsite raw (.failure isAbort msg)).responseTimeMs = none
        ∧ (scanWebsite raw (.failure isAbort msg)).headers = []
        ∧ (scanWebsite raw (.failure isAbort msg)).htmlSnippet = none)
    ∧ (∀ (raw : JStr) (msg : Option JStr),
        (scanWebsite raw (.failure true msg)).fetchError
          = some (jstr "Connection Timeout"))
    ∧ (∀ (raw : JStr) (c : Char) (cs : JStr),
        (scanWebsite raw (.failure false (some (c :: cs)))).fetchError
          = some (c :: cs)) := by
  exact ⟨fun raw a m => ⟨rfl, rfl, rfl, rfl⟩, fun raw m => rfl, fun raw c cs => rfl⟩

/-- Claim C6, counterexample.  A successful probe whose response exposes
no headers (an ordinary CORS outcome: only safelisted response headers
are visible) has `statusCode` and `responseTimeMs` present and
`fetchError` absent, yet its `headers` map is empty — the claimed
three-way joint-presence biconditional fails. -/
theorem c6_invariant_counterexample :
    ¬ ((((scanWebsite (jstr "https://ok.example")
            (.success 204 5 [] (jstr "x"))).statusCode ≠ none)
        ∧ ((scanWebsite (jstr "https://ok.example")
            (.success 204 5 [] (jstr "x"))).responseTimeMs ≠ none)
        ∧ ((scanWebsite (jstr "https://ok.example")
            (.success 204 5 [] (jstr "x"))).headers ≠ []))
      ↔ (scanWebsite (jstr "https://ok.example")
            (.success 204 5 [] (jstr "x"))).fetchError = none) := by
  decide

/-- Claim C6 (amended).  `statusCode` and `responseTimeMs` are present
exactly when `fetchError` is absent, and `headers` is empty whenever
`fetchError` is present; but on a successful probe the `headers` map is
whatever the response exposed and may be empty, so non-emptiness of
`headers` cannot be part of the biconditional. -/
theorem c6_presence_invariant :
    (∀ (raw : JStr) (o : FetchOutcome),
        ((scanWebsite raw o).statusCode.isSome
            = ((scanWebsite raw o).fetchError).isNone)
        ∧ ((scanWebsite raw o).responseTimeMs.isSome
            = ((scanWebsite raw o).fetchError).isNone))
    ∧ (∀ (raw : JStr) (isAbort : Bool) (msg : Option JStr),
        (scanWebsite raw (.failure isAbort msg)).headers = []) := by
  exact ⟨fun raw o => by rcases o <;> exact ⟨rfl, rfl⟩, fun raw a m => rfl⟩

/-- Claim C2.  Under every fallback outcome of the remote path (no
credential, remote rejection, remote timeout winning the race, empty
payload, JSON parse failure) the orchestrator resolves — the model is a
total function — with the serialised deterministic analysis, whose
health score lies in [0, 100] and whose seo, accessibility, privacy and
recommendations fields are all populated (non-empty); the serialised
value decodes back to that analysis, i.e. the result is a well-shaped
`AIAnalysis`. -/
theorem c2_enrich_fallback_totality :
    ∀ (m : ScanMetrics) (L : JStr),
      (analyzeWithGemini .noKey m L = encodeAIAnalysis (simulateAnalysis m L))
      ∧ (analyzeWithGemini .timeoutFirst m L = encodeAIAnalysis (simulateAnalysis m L))
      ∧ (analyzeWithGemini .callRejected m L = encodeAIAnalysis (simulateAnalysis m L))
      ∧ (∀ parsed, analyzeWithGemini (.responded none parsed) m L
          = encodeAIAnalysis (simulateAnalysis m L))
      ∧ (∀ parsed, analyzeWithGemini (.responded (some []) parsed) m L
          = encodeAIAnalysis (simulateAnalysis m L))
      ∧ (∀ (c : Char) (t : JStr), analyzeWithGemini (.responded (some (c :: t)) none) m L
          = encodeAIAnalysis (simulateAnalysis m L))
      ∧ 0 ≤ (simulateAnalysis m L).healthScore
      ∧ (simulateAnalysis m L).healthScore ≤ 100
      ∧ (simulateAnalysis m L).seo.summary ≠ []
      ∧ (simulateAnalysis m L).seo.details ≠ []
      ∧ (simulateAnalysis m L).accessibility.summary ≠ []
      ∧ (simulateAnalysis m L).accessibility.details ≠ []
      ∧ (simulateAnalysis m L).privacy.summary ≠ []
      ∧ (simulateAnalysis m L).privacy.details ≠ []
      ∧ (simulateAnalysis m L).recommendations ≠ []
      ∧ decodeAIAnalysis (analyzeWithGemini .noKey m L)
          = some (simulateAnalysis m L) := by
  intro m L
  have h15 := simulateScore_ge_15 m L
  have h100 := simulateScore_le_100 m L
  refine ⟨rfl, rfl, rfl, fun parsed => rfl, fun parsed => rfl, fun c t => rfl,
    by rw [healthScore_simulate]; omega, by rw [healthScore_simulate]; omega,
    ?_, ?_, ?_, ?_, ?_, ?_, ?_, decode_encode (simulateAnalysis m L)⟩
  all_goals rcases h : snippetFalsy m.htmlSnippet <;> simp [simulateAnalysis, h] <;> decide

/-- Claim C4, counterexample.  A remote payload `"5"` JSON-parses to the
number 5, which does not match the `AIAnalysis` shape, yet the
orchestrator returns it verbatim instead of the output of the
deterministic engine: the `as AIAnalysis` cast performs no validation, so "parses as
structured data matching the expected shape" is not the gate the code
implements. -/
theorem c4_orchestrator_counterexample :
    analyzeWithGemini (.responded (some (jstr "5")) (some (.num 5)))
        ⟨jstr "https://ok.example", some 200, some 1, [], some (jstr "<p>"), none⟩ []
      = Json.num 5
    ∧ decodeAIAnalysis (Json.num 5) = none
    ∧ Json.num 5 ≠ encodeAIAnalysis (simulateAnalysis
        ⟨jstr "https://ok.example", some 200, some 1, [], some (jstr "<p>"), none⟩ []) := by
  refine ⟨rfl, rfl, ?_⟩
  simp [encodeAIAnalysis]

/-- Claim C4 (amended).  The orchestrator returns the remote payload iff
the remote call wins the race with a non-empty textual payload on which
`JSON.parse` succeeds — the parsed JSON value is returned as-is, with no
validation against the `AIAnalysis` shape; in every other case (no key,
timeout first, rejection, empty payload, parse failure) the result is
exactly the serialised deterministic engine output on the same inputs. -/
theorem c4_remote_payload_unvalidated :
    ∀ (m : ScanMetrics) (L : JStr),
      (∀ (c : Char) (t : JStr) (j : Json),
        analyzeWithGemini (.responded (some (c :: t)) (some j)) m L = j)
      ∧ (analyzeWithGemini .noKey m L = encodeAIAnalysis (simulateAnalysis m L))
      ∧ (analyzeWithGemini .timeoutFirst m L = encodeAIAnalysis (simulateAnalysis m L))
      ∧ (analyzeWithGemini .callRejected m L = encodeAIAnalysis (simulateAnalysis m L))
      ∧ (∀ parsed, analyzeWithGemini (.responded none parsed) m L
          = encodeAIAnalysis (simulateAnalysis m L))
      ∧ (∀ parsed, analyzeWithGemini (.responded (some []) parsed) m L
          = encodeAIAnalysis (simulateAnalysis m L))
      ∧ (∀ (c : Char) (t : JStr), analyzeWithGemini (.responded (some (c :: t)) none) m L
          = encodeAIAnalysis (simulateAnalysis m L)) := by
  exact fun m L => ⟨fun c t j => rfl, rfl, rfl, rfl, fun p => rfl, fun p => rfl,
    fun c t => rfl⟩

/-- The case-insensitive prefix test succeeds exactly when the
lower-cased prefix of the text equals the (lower-case) pattern. -/
theorem startsWithCI_iff (p : JStr) : ∀ t : JStr,
    startsWithCI p t = true ↔ lowerStr (t.take p.length) = p := by
  induction p with
  | nil => intro t; simp [startsWithCI, lowerStr]
  | cons ph ps ih =>
    intro t
    rcases t with _ | ⟨c, cs⟩
    · simp [startsWithCI, lowerStr]
    · simp [startsWithCI, lowerStr, List.take, Bool.and_eq_true, beq_iff_eq, ih,
        List.map_cons, List.cons.injEq]

/-- Claim C8.  For every raw input, the URL normaliser returns the
whitespace-trimmed input unchanged when it begins, case-insensitively,
with `http://` or `https://`, and otherwise returns `https://` prepended
to the trimmed input; the stage is a total function (no error path). -/
theorem c8_url_normalizer :
    ∀ raw : JStr,
      normalizeUrl raw =
        if lowerStr ((jsTrim raw).take 7) = jstr "http://"
            ∨ lowerStr ((jsTrim raw).take 8) = jstr "https://"
        then jsTrim raw
        else jstr "https://" ++ jsTrim raw := by
  intro raw
  have key : (startsWithCI (jstr "http://") (jsTrim raw)
        || startsWithCI (jstr "https://") (jsTrim raw)) = true
      ↔ (lowerStr ((jsTrim raw).take 7) = jstr "http://"
        ∨ lowerStr ((jsTrim raw).take 8) = jstr "https://") := by
    rw [Bool.or_eq_true, startsWithCI_iff, startsWithCI_iff]
    constructor
    · rintro (h | h)
      · exact Or.inl h
      · exact Or.inr h
    · rintro (h | h)
      · exact Or.inl h
      · exact Or.inr h
  rw [normalizeUrl]
  by_cases h : (startsWithCI (jstr "http://") (jsTrim raw)
      || startsWithCI (jstr "https://") (jsTrim raw)) = true
  · rw [if_pos h, if_pos (key.mp h)]
  · rw [if_neg h, if_neg (fun hc => h (key.mpr hc))]


/-- The recursive leftmost search agrees with the specification-style
first-position-in-range formulation. -/
theorem findCI_eq_firstMatchCI (pat : JStr) : ∀ text : JStr,
    findCI pat text = firstMatchCI pat text := by
  intro text
  induction text with
  | nil =>
    cases h : startsWithCI pat [] <;>
      simp [findCI, firstMatchCI, List.range_succ, matchesAtCI, h]
  | cons c cs ih =>
    have hpred : (matchesAtCI pat (c :: cs)) ∘ Nat.succ = matchesAtCI pat cs := by
      funext i
      simp [matchesAtCI, Function.comp, List.drop_succ_cons]
    have hrange : List.range ((c :: cs).length + 1)
        = 0 :: (List.range (cs.length + 1)).map Nat.succ := by
      rw [List.length_cons, List.range_succ_eq_map]
    rw [findCI, firstMatchCI, hrange, List.find?_cons]
    cases h : startsWithCI pat (c :: cs) with
    | true =>
      have h0 : matchesAtCI pat (c :: cs) 0 = true := by
        simpa [matchesAtCI] using h
      simp [h, h0]
    | false =>
      have h0 : matchesAtCI pat (c :: cs) 0 = false := by
        simpa [matchesAtCI] using h
      rw [h0]
      simp only [if_neg, Bool.false_eq_true, not_false_eq_true, List.find?_map, hpred]
      rw [ih, firstMatchCI]

/-- The head contribution of the snippet equals the claimed head block
(or nothing when the region is not found). -/
theorem headPart_eq_spec (text : JStr) :
    (match matchHead text with
     | some (p, len) => (text.drop p).take len
     | none => []) = (specHeadBlock text).getD [] := by
  unfold matchHead specHeadBlock
  rw [findCI_eq_firstMatchCI]
  rcases firstMatchCI (jstr "<head>") text with _ | p
  · rfl
  · dsimp only
    rw [findCI_eq_firstMatchCI]
    rcases firstMatchCI (jstr "</head>") (text.drop (p + 6)) with _ | q <;> rfl

/-- The body contribution of the snippet equals the first 1500
characters of the claimed body inner content (or nothing). -/
theorem bodyPart_eq_spec (text : JStr) :
    (match matchBodyInner text with
     | some (s, len) => ((text.drop s).take len).take 1500
     | none => []) = ((specBodyInner text).getD []).take 1500 := by
  unfold matchBodyInner specBodyInner
  rw [findCI_eq_firstMatchCI]
  rcases firstMatchCI (jstr "<body") text with _ | p
  · rfl
  · dsimp only
    rcases (text.drop (p + 5)).findIdx? (fun c => c == '>') with _ | g
    · rfl
    · dsimp only
      rw [findCI_eq_firstMatchCI]
      rcases firstMatchCI (jstr "</body>") (text.drop (p + 5 + g + 1)) with _ | q <;> rfl

/-- The extractor agrees with the amended specification-level snippet. -/
theorem extractSnippet_eq_amended (text : JStr) :
    extractSnippet text = amendedSnippetSpec text := by
  unfold extractSnippet amendedSnippetSpec
  rw [headPart_eq_spec, bodyPart_eq_spec]
  rcases h : (specHeadBlock text).getD [] ++ ((specBodyInner text).getD []).take 1500
    with _ | ⟨c, cs⟩ <;> simp [h]

/-- Claim C5, counterexample.  At raw body `<body></body>` the claim
predicts a present empty snippet (head not found contributes nothing;
body found with empty inner content contributes its first 1500
characters, i.e. nothing; the 2000-character fallback requires NEITHER
region to be found), but the code appends the empty contributions into an
empty accumulator and its falsy-test then triggers the raw-prefix
fallback, yielding `"<body></body>"`. -/
theorem c5_extraction_counterexample :
    (scanWebsite (jstr "https://ok.example")
        (.success 200 1 [] (jstr "<body></body>"))).htmlSnippet
      = some (jstr "<body></body>")
    ∧ claimSnippetOpt (jstr "<body></body>") = some []
    ∧ (scanWebsite (jstr "https://ok.example")
        (.success 200 1 [] (jstr "<body></body>"))).htmlSnippet
      ≠ claimSnippetOpt (jstr "<body></body>") := by
  exact ⟨by decide, by decide, by decide⟩

/-- Claim C5 (amended).  The extracted snippet is the whole matched
`<head>...</head>` block (if found) followed by up to the first 1500
characters of the `<body ...>...</body>` inner content (if found); the
first-2000-characters fallback applies whenever that concatenation is
EMPTY (neither region found, or only an empty body inner content) — not
only when neither region is found; and an empty raw body yields the
present empty-string snippet (wrapped in `some` by the probe), not an
absent one. -/
theorem c5_snippet_extraction :
    (∀ text : JStr, extractSnippet text = amendedSnippetSpec text)
    ∧ extractSnippet [] = []
    ∧ (∀ (raw : JStr) (st ms : Int) (hdrs : List (JStr × JStr)) (body : JStr),
        (scanWebsite raw (.success st ms hdrs body)).htmlSnippet
          = some (extractSnippet body)) := by
  exact ⟨extractSnippet_eq_amended, rfl, fun raw st ms hdrs body => rfl⟩
